import Mathlib

/-!
# Verification of the out-of-fold prediction-feature pipeline

Shallow embedding of `src/mlens/preprocessing/feature_engineering.py`
(class `PredictionFeature`).  The collaborators that the class calls —
`mlens.base.IdTrain`, `mlens.base.check_fit_overlap`,
`mlens.parallel.preprocess_folds`, `mlens.parallel.fit_estimators`,
`mlens.parallel.base_predict` — are part of the repository but their
source is not shown; they are modelled from the specification
(spec §4.1–§4.4), as marked on each definition.

Numeric cells are embedded as `Int`; a sample matrix is a list of rows.
Estimators are caller-supplied black boxes (spec §6): fitting a template
on data yields an opaque fitted predictor, embedded as a function from a
test matrix to a prediction vector.  All Python methods that mutate the
object are embedded as state-passing functions; `predict`/`transform`
assign no attribute in the source, so they return the state unchanged.
-/

namespace Mlens

/-- Error taxonomy of spec §7.  `notFittedError` is the spec's name for the
predict/transform-before-fit failure; `attributeError` models a Python
attribute access on an attribute that no method has assigned yet
(`train_ests_`, `test_ests_` and `_fitted_ests` are only assigned in
`fit`). -/
inductive Err where
  | configurationError : Err
  | estimatorMismatchError : String → Err
  | notFittedError : Err
  | attributeError : String → Err
deriving DecidableEq

/-- A fitted model: the opaque fitted state of spec §3 is embedded as the
prediction function it supports (`predict(X) -> vector`, spec §6). -/
def FittedModel : Type := List (List Int) → List Int

/-- An estimator template (spec §3, §6): a named, unfitted model
specification with capability `fit(X, y) -> fitted_model`.  Cloning a
template (spec §4.3) is value-semantics copying, which for a pure
function is the identity. -/
structure Estimator where
  name : String
  fitfn : List (List Int) → List Int → FittedModel

/-- Default estimator used only as a `getD` fallback in statements. -/
def defaultEstimator : Estimator :=
  { name := "", fitfn := fun _ _ => fun _ => [] }

/-- Tabular input (spec §6): either a plain 2D numeric array or a labeled
table (row-label index carried alongside the values). -/
inductive XInput where
  | arr : List (List Int) → XInput
  | df : List Int → List (List Int) → XInput

/-- The numeric values of a tabular input. -/
def XInput.data : XInput → List (List Int)
  | .arr m => m
  | .df _ m => m

/-- Whether the input carries a row-label index (pandas `DataFrame`). -/
def XInput.isDf : XInput → Bool
  | .arr _ => false
  | .df _ _ => true

/-- Default row-label index of a freshly built prediction frame
(pandas `RangeIndex`). -/
def defaultIndex (n : Nat) : List Int :=
  (List.range n).map (fun i => (i : Int))

/-- Modelled from the spec: `mlens.base.IdTrain` (row fingerprint checker,
spec §4.2) is not under `src/`.  State: the configured `sample_size` and,
once fitted, the training row count together with the sampled rows.  The
sampling strategy is the spec-sanctioned deterministic first-`N`-rows
choice (spec §4.2, §9); the stored signature is the sampled values
themselves. -/
structure IdTrain where
  size : Nat
  sample : Option (Nat × List (List Int))

/-- Modelled from the spec: `IdTrain.fit` (spec §4.2) — samples
`sample_size` rows and stores their signature; fails with
`ConfigurationError` if `sample_size` exceeds the row count. -/
def IdTrain.fit (c : IdTrain) (X : List (List Int)) : Except Err IdTrain :=
  if c.size > X.length then .error .configurationError
  else .ok { size := c.size, sample := some (X.length, X.take c.size) }

/-- Modelled from the spec: `IdTrain.is_train` (spec §4.2) — false when the
row count differs, otherwise re-samples the same positions and compares
exactly.  The spec does not define the unfitted checker; it is modelled
as never matching (either choice leads `predict` before `fit` to fail on
the unset fitted-estimator attributes). -/
def IdTrain.is_train (c : IdTrain) (X : List (List Int)) : Bool :=
  match c.sample with
  | none => false
  | some (n, s) => decide (X.length = n ∧ X.take c.size = s)

/-- Modelled from the spec: fold sizes of the partitioner (spec §4.3 –
fold `i` holds out rows `[i*n/k, (i+1)*n/k)`, so its size is the
difference of consecutive boundaries). -/
def foldSizes (n k : Nat) : List Nat :=
  (List.range k).map (fun i => (i + 1) * n / k - i * n / k)

/-- Split a list into consecutive chunks of the given sizes. -/
def chunks {α : Type} : List α → List Nat → List (List α)
  | _, [] => []
  | l, s :: ss => l.take s :: chunks (l.drop s) ss

/-- Modelled from the spec: the Fold Partitioner's held-out blocks
(spec §4.1).  If `shuffle` is true the row order is permuted
deterministically from `seed` (the exact permutation is an
implementation choice, spec §9; a seeded rotation is used) and the
permuted order is sliced into `k` contiguous blocks. -/
def foldIndex (n k : Nat) (shuffle : Bool) (seed : Nat) : List (List Nat) :=
  chunks (if shuffle then (List.range n).rotate seed else List.range n) (foldSizes n k)

/-- Select the rows of `l` at the given indices (out-of-range indices give
the default, which never happens for partitioner output). -/
def selectRows {α : Type} (l : List α) (idx : List Nat) (d : α) : List α :=
  idx.map (fun i => l.getD i d)

/-- One fold slice (spec §3, §4.1): held-out rows `test_rows`, the
complementary training rows, the corresponding data and label subsets,
and the fold id. -/
structure FoldSlice where
  xtrain : List (List Int)
  ytrain : List Int
  xtest : List (List Int)
  test_rows : List Nat
  train_rows : List Nat
  fold_id : Nat

/-- The training rows of a fold: every row of the matrix that is not held
out (spec §3: `train_rows ∩ test_rows = ∅`). -/
def foldTrainRows (n : Nat) (te : List Nat) : List Nat :=
  (List.range n).filter (fun r => decide (r ∉ te))

/-- Modelled from the spec: the fold slices produced for one partition
(spec §4.1 and the data flow of §2): fold `i` holds out block `i`,
trains on all other rows (natural order). -/
def mkFoldSlices (X : List (List Int)) (y : List Int) (folds : Nat)
    (shuffle : Bool) (seed : Nat) : List FoldSlice :=
  let tes := foldIndex X.length folds shuffle seed
  (List.range tes.length).map (fun i =>
    let te := tes.getD i []
    let tr := foldTrainRows X.length te
    { xtrain := selectRows X tr [], ytrain := selectRows y tr 0,
      xtest := selectRows X te [], test_rows := te, train_rows := tr,
      fold_id := i })

/-- Modelled from the spec: `mlens.parallel.preprocess_folds` is not under
`src/`.  Per spec §4.1 the fold count must be at least 2
(`ConfigurationError` otherwise); the output is the ordered, reproducible
sequence of fold slices. -/
def preprocess_folds (X : List (List Int)) (y : List Int) (folds : Nat)
    (shuffle : Bool) (seed : Nat) : Except Err (List FoldSlice) :=
  if folds < 2 then .error .configurationError
  else .ok (mkFoldSlices X y folds shuffle seed)

/-- Modelled from the spec: `mlens.parallel.fit_estimators` on fold slices
(spec §4.3 `fit_all`) is not under `src/`.  Every template is cloned per
slice (value semantics) and fit on the slice's training subset against
the corresponding label subset.  `n_workers` only affects wall-clock
time, never output values (spec §4.3, §5), so the result is that of the
sequential computation for every worker count. -/
def fit_estimators (slices : List FoldSlice) (ests : List Estimator)
    (n_jobs : Nat) : List (Nat × List (String × FittedModel)) :=
  slices.map (fun s =>
    (s.fold_id, ests.map (fun e => (e.name, e.fitfn s.xtrain s.ytrain))))

/-- Modelled from the spec: the full-data case of `fit_all` (spec §4.3) —
the single slice covering all rows is fit against the full label vector.
As above, `n_workers` never affects output values. -/
def fit_full_estimators (X : List (List Int)) (y : List Int)
    (ests : List Estimator) (n_jobs : Nat) : List (String × FittedModel) :=
  ests.map (fun e => (e.name, e.fitfn X y))

/-- A prediction-time slice (spec §4.4): the held-out data, the positions
those rows occupy in the output matrix, and the slice id keying the
fitted handles. -/
structure PredSlice where
  xtest : List (List Int)
  test_rows : List Nat
  slice_id : Nat

/-- Look up the fitted handles of a slice id (spec §4.4: fitted handles
are keyed by fold/slice). -/
def lookupHandles (handles : List (Nat × List (String × FittedModel)))
    (i : Nat) : List (String × FittedModel) :=
  match handles.find? (fun p => decide (p.1 = i)) with
  | some p => p.2
  | none => []

/-- Index of the first occurrence of `r` in `l` (position of a held-out
row inside its fold's prediction vector). -/
def idxIn (l : List Nat) (r : Nat) : Nat :=
  l.findIdx (fun x => decide (x = r))

/-- Modelled from the spec: one cell of the assembled prediction matrix
(spec §4.4).  Each fold's estimator output is written into the column of
that estimator name at the row positions of the held-out indices; under
the partition invariant (each row held out exactly once, spec §3) the
cell at `(r, c)` is the prediction for `r` made by the estimator of
column `c` fitted for the unique slice holding `r` out.  Cells no slice
or no handle writes keep the initial value 0. -/
def cellValue (slices : List PredSlice)
    (handles : List (Nat × List (String × FittedModel)))
    (columns : List String) (r c : Nat) : Int :=
  match slices.find? (fun s => decide (r ∈ s.test_rows)) with
  | none => 0
  | some s =>
    match (lookupHandles handles s.slice_id).find?
        (fun h => decide (h.1 = columns.getD c "")) with
    | none => 0
    | some h => (h.2 s.xtest).getD (idxIn s.test_rows r) 0

/-- Modelled from the spec: `mlens.parallel.base_predict` is not under
`src/`.  Spec §4.4: produces the `n × columns` prediction matrix
(one column per expected estimator name) together with the names of the
estimators that actually produced output.  `n_jobs` never affects output
values (spec §5: workers own disjoint regions). -/
def base_predict (slices : List PredSlice)
    (handles : List (Nat × List (String × FittedModel)))
    (n : Nat) (columns : List String) (n_jobs : Nat) :
    List (List Int) × List String :=
  ((List.range n).map (fun r =>
      (List.range columns.length).map (fun c => cellValue slices handles columns r c)),
   (slices.map (fun s => (lookupHandles handles s.slice_id).map Prod.fst)).flatten.dedup)

/-- Modelled from the spec: `mlens.base.check_fit_overlap` is not under
`src/`.  Spec §4.4: compares the produced estimator names against the
expected ones and fails with `EstimatorMismatchError` if any expected
estimator produced no output. -/
def check_fit_overlap (full_fit_est : List String) (fold_fit_est : List String)
    (ctx : String) : Except Err Unit :=
  if full_fit_est.all (fun nm => decide (nm ∈ fold_fit_est)) then .ok ()
  else .error (.estimatorMismatchError ctx)

/-- Constructor parameters of `PredictionFeature`
(`feature_engineering.py` lines 74–89).  `scorer` and `verbose` only
affect scoring hooks and diagnostic printing, never the values computed
by `fit`/`predict`/`transform`, and are omitted. -/
structure PFConfig where
  estimators : List Estimator
  folds : Nat := 2
  shuffle : Bool := true
  concat : Bool := true
  random_state : Nat := 0
  sample_size : Nat := 10
  n_jobs : Nat := 1

/-- The `PredictionFeature` object state (`feature_engineering.py`).
`check` is assigned in `__init__` (line 87) and re-assigned in `fit`
(line 108); `train_ests_`, `test_ests_` and `_fitted_ests` are assigned
only in `fit` (lines 128, 132, 139), hence `Option`-typed: `none` models
a Python attribute that does not exist yet. -/
structure PredictionFeature where
  cfg : PFConfig
  check : IdTrain
  train_ests_ : Option (List (Nat × List (String × FittedModel)))
  test_ests_ : Option (List (String × FittedModel))
  _fitted_ests : Option (List String)

/-- `PredictionFeature.__init__` (lines 74–89): stores the configuration
and an unfitted `IdTrain(sample_size)` checker; no estimator is fitted. -/
def mkPredictionFeature (cfg : PFConfig) : PredictionFeature :=
  { cfg := cfg, check := { size := cfg.sample_size, sample := none },
    train_ests_ := none, test_ests_ := none, _fitted_ests := none }

/-- `PredictionFeature.fit` (lines 91–144): stores the training-set
fingerprint (line 108), builds the fold slices (lines 119–125), fits one
estimator clone set per fold (lines 126–129) and a full-data clone set
on all of `X` (lines 132–136), and records the names that produced a
full-data fit (lines 138–139).  The returned state is built from this
fit alone — no prior fitted handle is retained. -/
def PredictionFeature.fit (pf : PredictionFeature) (X : XInput) (y : List Int) :
    Except Err PredictionFeature :=
  match pf.check.fit X.data with
  | .error e => .error e
  | .ok chk =>
    match preprocess_folds X.data y pf.cfg.folds pf.cfg.shuffle pf.cfg.random_state with
    | .error e => .error e
    | .ok fs =>
      let train := fit_estimators fs pf.cfg.estimators pf.cfg.n_jobs
      let test := fit_full_estimators X.data y pf.cfg.estimators pf.cfg.n_jobs
      .ok { cfg := pf.cfg, check := chk, train_ests_ := some train,
            test_ests_ := some test, _fitted_ests := some (test.map Prod.fst) }

/-- A fold slice reduced to what prediction needs (`xtest`, output row
positions, slice id). -/
def FoldSlice.toPredSlice (s : FoldSlice) : PredSlice :=
  { xtest := s.xtest, test_rows := s.test_rows, slice_id := s.fold_id }

/-- The branch-selection and assembly part of `PredictionFeature.predict`
(lines 159–185): if the fingerprint checker recognizes `X` as the
training set, the folds are regenerated with the fit-time `folds`,
`shuffle` and `random_state` and the fold-wise handles are used;
otherwise the single full slice and the full-data handles are used.
Returns the assembled matrix, the expected estimator names
(`columns=self._fitted_ests`, line 184) and the produced names. -/
def PredictionFeature.predict_parts (pf : PredictionFeature) (X : XInput)
    (y : List Int) : Except Err (List (List Int) × List String × List String) :=
  if pf.check.is_train X.data then
    match preprocess_folds X.data y pf.cfg.folds pf.cfg.shuffle pf.cfg.random_state with
    | .error e => .error e
    | .ok fs =>
      match pf.train_ests_ with
      | none => .error (.attributeError "train_ests_")
      | some tr =>
        match pf._fitted_ests with
        | none => .error (.attributeError "_fitted_ests")
        | some cols =>
          let res := base_predict (fs.map FoldSlice.toPredSlice) tr
            X.data.length cols pf.cfg.n_jobs
          .ok (res.1, cols, res.2)
  else
    match pf.test_ests_ with
    | none => .error (.attributeError "test_ests_")
    | some te =>
      match pf._fitted_ests with
      | none => .error (.attributeError "_fitted_ests")
      | some cols =>
        let res := base_predict [PredSlice.mk X.data (List.range X.data.length) 0]
          [(0, te)] X.data.length cols pf.cfg.n_jobs
        .ok (res.1, cols, res.2)

/-- `PredictionFeature.predict` (lines 146–189): assembles the prediction
matrix, then compares the produced estimator names against
`self._fitted_ests` via `check_fit_overlap` (lines 187–188) and returns
the matrix (as a labeled frame when `X` was one).  No attribute is
assigned, so the object state is returned unchanged. -/
def PredictionFeature.predict (pf : PredictionFeature) (X : XInput)
    (y : List Int) : Except Err (XInput × PredictionFeature) :=
  match pf.predict_parts X y with
  | .error e => .error e
  | .ok (M, cols, prod) =>
    match check_fit_overlap cols prod "prediction_feature" with
    | .error e => .error e
    | .ok _ =>
      .ok (if X.isDf then (XInput.df (defaultIndex M.length) M, pf)
           else (XInput.arr M, pf))

/-- `PredictionFeature.transform` (lines 191–214): calls `predict`; when
`concat` is false returns the prediction matrix alone, otherwise appends
the prediction columns to `X` — for a labeled `X` the prediction frame
is re-indexed with `X`'s row labels before column-wise concatenation
(lines 209–212), for a plain array `hstack` is used (line 214). -/
def PredictionFeature.transform (pf : PredictionFeature) (X : XInput)
    (y : List Int) : Except Err (XInput × PredictionFeature) :=
  match pf.predict X y with
  | .error e => .error e
  | .ok (M, pf2) =>
    if !pf.cfg.concat then .ok (M, pf2)
    else
      match X with
      | .arr xd => .ok (XInput.arr (List.zipWith (fun a b => a ++ b) xd M.data), pf2)
      | .df idx xd => .ok (XInput.df idx (List.zipWith (fun a b => a ++ b) xd M.data), pf2)

/-- Follows the spec's words (§4.5 `predict`, training-set branch): the
prediction matrix and produced names obtained by regenerating the folds
with the stored `folds`/`shuffle`/`random_state` and predicting with the
fold-wise handles through the Out-of-Fold Predictor. -/
def specFoldedPredict (pf : PredictionFeature) (X : XInput) (y : List Int) :
    List (List Int) × List String :=
  base_predict
    ((mkFoldSlices X.data y pf.cfg.folds pf.cfg.shuffle pf.cfg.random_state).map
      FoldSlice.toPredSlice)
    (pf.train_ests_.getD []) X.data.length (pf._fitted_ests.getD []) pf.cfg.n_jobs

/-- Follows the spec's words (§4.5 `predict`, unseen-data branch): the
prediction matrix and produced names obtained from the full-data handles
on the single slice covering all of `X`. -/
def specFullDataPredict (pf : PredictionFeature) (X : XInput) :
    List (List Int) × List String :=
  base_predict
    [PredSlice.mk X.data (List.range X.data.length) 0]
    [(0, pf.test_ests_.getD [])] X.data.length (pf._fitted_ests.getD []) pf.cfg.n_jobs

/-- `X` with the prediction columns of `M` appended (the `concat` branch
of `transform`, lines 209–214): a labeled `X` keeps its row labels and
row order; a plain array is `hstack`-ed. -/
def concatColumns (X M : XInput) : XInput :=
  match X with
  | .arr xd => XInput.arr (List.zipWith (fun a b => a ++ b) xd M.data)
  | .df idx xd => XInput.df idx (List.zipWith (fun a b => a ++ b) xd M.data)

/-- The fitted part of the object state: fingerprint checker, fold-wise
handles, full-data handles and recorded names (everything except the
constructor configuration). -/
def fittedState (p : PredictionFeature) :
    IdTrain × Option (List (Nat × List (String × FittedModel)))
      × Option (List (String × FittedModel)) × Option (List String) :=
  (p.check, p.train_ests_, p.test_ests_, p._fitted_ests)

/-- Concrete estimator: predicts, for every test row, the sum of the
training labels plus the row's feature sum. -/
def estA : Estimator :=
  { name := "a",
    fitfn := fun _ ytr => fun Xte =>
      Xte.map (fun row => ytr.foldl (· + ·) 0 + row.foldl (· + ·) 0) }

/-- Concrete estimator: predicts the number of training rows for every
test row. -/
def estB : Estimator :=
  { name := "b",
    fitfn := fun Xtr _ => fun Xte => Xte.map (fun _ => (Xtr.length : Int)) }

/-- Concrete configuration used by the witnesses. -/
def wcfg : PFConfig :=
  { estimators := [estA, estB], folds := 2, shuffle := true, concat := true,
    random_state := 3, sample_size := 2, n_jobs := 1 }

/-- Concrete 4×2 training matrix. -/
def wX : XInput := .arr [[1, 2], [3, 4], [5, 6], [7, 8]]

/-- Concrete labels for `wX`. -/
def wy : List Int := [10, 20, 30, 40]

/-- Concrete matrix not recognized as the training set (different row
count). -/
def wXnew : XInput := .arr [[9, 9], [8, 8], [7, 7]]

/-- Unfitted transformer over `wcfg`. -/
def wpf0 : PredictionFeature := mkPredictionFeature wcfg

/-- The transformer after `fit(wX, wy)`. -/
def wpf1 : PredictionFeature := ((wpf0.fit wX wy).toOption).getD wpf0

/-- Result of `predict` on the training matrix after fitting. -/
def wPredTrain : XInput × PredictionFeature :=
  ((wpf1.predict wX []).toOption).getD (.arr [], wpf0)

/-- Assembly-phase result of `predict` on the training matrix. -/
def wPartsTrain : List (List Int) × List String × List String :=
  ((wpf1.predict_parts wX []).toOption).getD ([], [], [])

/-- Result of `transform` on the unseen matrix after fitting. -/
def wTransNew1 : XInput × PredictionFeature :=
  ((wpf1.transform wXnew []).toOption).getD (.arr [], wpf0)

/-- Labels for the refit on `wXnew`. -/
def wyNew : List Int := [1, 2, 3]

/-- The transformer after refitting on `(wXnew, wyNew)`. -/
def wpf2r : PredictionFeature := ((wpf1.fit wXnew wyNew).toOption).getD wpf0

/-- A concrete fitted model that predicts 7 for every row. -/
def w4model : FittedModel := fun Xte => Xte.map (fun _ => 7)

/-- A hand-assembled fitted state whose full-data handles miss the
expected estimator `"b"` (models a partial failure). -/
def w4pf : PredictionFeature :=
  { cfg := wcfg, check := IdTrain.mk 2 none, train_ests_ := none,
    test_ests_ := some [("a", w4model)], _fitted_ests := some ["a", "b"] }

/-- Concrete 2×1 matrix for the mismatch witness. -/
def w4X : XInput := .arr [[1], [2]]

/-- Fit result with one worker. -/
def w9p1 : PredictionFeature :=
  (((mkPredictionFeature { wcfg with n_jobs := 1 }).fit wX wy).toOption).getD wpf0

/-- Fit result with seven workers. -/
def w9p2 : PredictionFeature :=
  (((mkPredictionFeature { wcfg with n_jobs := 7 }).fit wX wy).toOption).getD wpf0

/-! ## Helper lemmas -/

theorem telescope_sum (f : Nat → Nat) (mono : ∀ i, f i ≤ f (i + 1)) :
    ∀ m, ((List.range m).map (fun i => f (i + 1) - f i)).sum = f m - f 0 := by
  intro m
  induction m with
  | zero => simp
  | succ m ih =>
    rw [List.range_succ, List.map_append, List.sum_append, ih]
    have h1 : f 0 ≤ f m := by
      clear ih
      induction m with
      | zero => exact Nat.le_refl _
      | succ m ih2 => exact Nat.le_trans ih2 (mono m)
    have h2 : f m ≤ f (m + 1) := mono m
    simp
    omega

theorem foldSizes_sum (n k : Nat) (hk : 1 ≤ k) : (foldSizes n k).sum = n := by
  have mono : ∀ i, i * n / k ≤ (i + 1) * n / k := fun i =>
    Nat.div_le_div_right (Nat.mul_le_mul_right n (Nat.le_succ i))
  have := telescope_sum (fun i => i * n / k) mono k
  rw [foldSizes, this]
  simp [Nat.mul_div_cancel_left n (Nat.lt_of_lt_of_le Nat.zero_lt_one hk)]

theorem chunks_flatten {α : Type} :
    ∀ (sizes : List Nat) (l : List α), sizes.sum = l.length →
      (chunks l sizes).flatten = l := by
  intro sizes
  induction sizes with
  | nil =>
    intro l h
    simp at h
    simp [chunks, (List.length_eq_zero).mp h.symm]
  | cons s ss ih =>
    intro l h
    simp [chunks]
    rw [ih (l.drop s) (by simp at h ⊢; omega)]
    exact List.take_append_drop s l

theorem exists_mem_foldIndex (n k seed : Nat) (shuffle : Bool) (hk : 1 ≤ k)
    (r : Nat) (hr : r < n) : ∃ te ∈ foldIndex n k shuffle seed, r ∈ te := by
  have hlen : (if shuffle then (List.range n).rotate seed else List.range n).length = n := by
    cases shuffle <;> simp
  have hjoin := chunks_flatten (foldSizes n k)
    (if shuffle then (List.range n).rotate seed else List.range n)
    (by rw [hlen]; exact foldSizes_sum n k hk)
  have hrm : r ∈ (if shuffle then (List.range n).rotate seed else List.range n) := by
    cases shuffle <;> simp [List.mem_rotate, List.mem_range, hr]
  rw [← hjoin] at hrm
  exact List.mem_flatten.mp hrm

theorem find_key_range {β : Type} (f : Nat → β) :
    ∀ (m j : Nat), j < m →
      (((List.range m).map (fun i => (i, f i))).find? (fun q => decide (q.1 = j)))
        = some (j, f j) := by
  intro m
  induction m with
  | zero => intro j hj; omega
  | succ m ih =>
    intro j hj
    rw [List.range_succ, List.map_append, List.find?_append]
    rcases Nat.lt_or_ge j m with h | h
    · rw [ih j h]; rfl
    · have hjm : j = m := by omega
      have hnone : ((List.range m).map (fun i => (i, f i))).find?
          (fun q => decide (q.1 = j)) = none := by
        rw [List.find?_eq_none]
        intro x hx
        rcases List.mem_map.mp hx with ⟨i, hi, rfl⟩
        have hi2 : i < m := List.mem_range.mp hi
        simp
        omega
      rw [hnone, hjm]
      simp [List.find?]

theorem find_est_by_name {β : Type} (g : Estimator → β) :
    ∀ (ests : List Estimator) (c : Nat), c < ests.length →
      ((ests.map Estimator.name).Nodup) →
      ((ests.map (fun e => (e.name, g e))).find?
          (fun h => decide (h.1 = (ests.map Estimator.name).getD c "")))
        = some ((ests.getD c defaultEstimator).name, g (ests.getD c defaultEstimator)) := by
  intro ests
  induction ests with
  | nil =>
    intro c hc _nd
    simp at hc
  | cons e tl ih =>
    intro c hc nd
    rcases c with _ | c'
    · simp [List.find?]
    · have hc' : c' < tl.length := by simpa using hc
      have ndc := List.nodup_cons.mp (by simpa using nd :
        (e.name :: tl.map Estimator.name).Nodup)
      have hmem : (tl.map Estimator.name).getD c' "" ∈ tl.map Estimator.name := by
        rw [List.getD_eq_getElem?_getD, List.getElem?_eq_getElem (by simpa using hc')]
        exact List.getElem_mem _
      have hneq : ¬ (e.name = (tl.map Estimator.name).getD c' "") := by
        intro h; exact ndc.1 (h ▸ hmem)
      simp only [List.map_cons, List.getD_cons_succ, List.find?_cons, decide_eq_false hneq]
      exact ih c' hc' ndc.2

theorem fit_ok_elim (pf : PredictionFeature) (X : XInput) (y : List Int)
    (pf1 : PredictionFeature) (h : pf.fit X y = .ok pf1) :
    pf1.cfg = pf.cfg ∧
    pf1.check = { size := pf.check.size,
                  sample := some (X.data.length, X.data.take pf.check.size) } ∧
    pf1.train_ests_ = some (fit_estimators
        (mkFoldSlices X.data y pf.cfg.folds pf.cfg.shuffle pf.cfg.random_state)
        pf.cfg.estimators pf.cfg.n_jobs) ∧
    pf1.test_ests_ = some (fit_full_estimators X.data y pf.cfg.estimators pf.cfg.n_jobs) ∧
    pf1._fitted_ests = some ((fit_full_estimators X.data y pf.cfg.estimators
        pf.cfg.n_jobs).map Prod.fst) ∧
    pf.check.size ≤ X.data.length ∧ 2 ≤ pf.cfg.folds := by
  rw [PredictionFeature.fit] at h
  rcases h1 : pf.check.fit X.data with e | chk
  · rw [h1] at h; exact absurd h (by simp)
  · rw [h1] at h
    rcases h2 : preprocess_folds X.data y pf.cfg.folds pf.cfg.shuffle pf.cfg.random_state
      with e | fs
    · rw [h2] at h; exact absurd h (by simp)
    · rw [h2] at h
      simp only [Except.ok.injEq] at h
      have hsize : ¬ pf.check.size > X.data.length := by
        intro hgt
        rw [IdTrain.fit, if_pos hgt] at h1
        exact absurd h1 (by simp)
      have hfolds : ¬ pf.cfg.folds < 2 := by
        intro hlt
        rw [preprocess_folds, if_pos hlt] at h2
        exact absurd h2 (by simp)
      rw [IdTrain.fit, if_neg hsize] at h1
      rw [preprocess_folds, if_neg hfolds] at h2
      simp only [Except.ok.injEq] at h1 h2
      subst h1; subst h2; subst h
      refine ⟨rfl, rfl, rfl, rfl, ?_, by omega, by omega⟩
      simp [fit_full_estimators, List.map_map]

theorem fit_is_train (pf : PredictionFeature) (X : XInput) (y : List Int)
    (pf1 : PredictionFeature) (h : pf.fit X y = .ok pf1) :
    pf1.check.is_train X.data = true := by
  rcases fit_ok_elim pf X y pf1 h with ⟨_, hchk, _⟩
  rw [hchk, IdTrain.is_train]
  simp

theorem predict_parts_folded (pf : PredictionFeature) (X : XInput) (y : List Int)
    (tr : List (Nat × List (String × FittedModel))) (cols : List String)
    (htr : pf.train_ests_ = some tr) (hcols : pf._fitted_ests = some cols)
    (hit : pf.check.is_train X.data = true) (hf : ¬ pf.cfg.folds < 2) :
    pf.predict_parts X y = .ok ((specFoldedPredict pf X y).1, cols,
      (specFoldedPredict pf X y).2) := by
  rw [PredictionFeature.predict_parts, if_pos (by rw [hit]),
      preprocess_folds, if_neg hf, htr, hcols]
  simp [specFoldedPredict, htr, hcols]

theorem predict_parts_full (pf : PredictionFeature) (X : XInput) (y : List Int)
    (te : List (String × FittedModel)) (cols : List String)
    (hte : pf.test_ests_ = some te) (hcols : pf._fitted_ests = some cols)
    (hit : pf.check.is_train X.data = false) :
    pf.predict_parts X y = .ok ((specFullDataPredict pf X).1, cols,
      (specFullDataPredict pf X).2) := by
  rw [PredictionFeature.predict_parts, if_neg (by rw [hit]; simp), hte, hcols]
  simp [specFullDataPredict, hte, hcols]

theorem mkFoldSlices_eq_rangeMap (X : List (List Int)) (y : List Int)
    (folds : Nat) (shuffle : Bool) (seed : Nat) :
    mkFoldSlices X y folds shuffle seed
      = (List.range (foldIndex X.length folds shuffle seed).length).map (fun i =>
          FoldSlice.mk
            (selectRows X (foldTrainRows X.length
              ((foldIndex X.length folds shuffle seed).getD i [])) [])
            (selectRows y (foldTrainRows X.length
              ((foldIndex X.length folds shuffle seed).getD i [])) 0)
            (selectRows X ((foldIndex X.length folds shuffle seed).getD i []) [])
            ((foldIndex X.length folds shuffle seed).getD i [])
            (foldTrainRows X.length ((foldIndex X.length folds shuffle seed).getD i []))
            i) := rfl

theorem lookup_fit_estimators (X : List (List Int)) (y : List Int)
    (folds : Nat) (shuffle : Bool) (seed : Nat) (ests : List Estimator)
    (nj : Nat) (j : Nat) (hj : j < (foldIndex X.length folds shuffle seed).length) :
    lookupHandles (fit_estimators (mkFoldSlices X y folds shuffle seed) ests nj) j
      = ests.map (fun e => (e.name,
          e.fitfn
            (selectRows X (foldTrainRows X.length
              ((foldIndex X.length folds shuffle seed).getD j [])) [])
            (selectRows y (foldTrainRows X.length
              ((foldIndex X.length folds shuffle seed).getD j [])) 0))) := by
  have hfe : fit_estimators (mkFoldSlices X y folds shuffle seed) ests nj
      = (List.range (foldIndex X.length folds shuffle seed).length).map (fun i =>
          (i, ests.map (fun e => (e.name,
            e.fitfn
              (selectRows X (foldTrainRows X.length
                ((foldIndex X.length folds shuffle seed).getD i [])) [])
              (selectRows y (foldTrainRows X.length
                ((foldIndex X.length folds shuffle seed).getD i [])) 0))))) := by
    rw [fit_estimators, mkFoldSlices_eq_rangeMap, List.map_map]
    rfl
  rw [lookupHandles, hfe, find_key_range _ _ j hj]

theorem exists_pred_slice (X : List (List Int)) (y : List Int)
    (folds : Nat) (shuffle : Bool) (seed : Nat) (r : Nat)
    (hr : r < X.length) (hk : 1 ≤ folds) :
    ∃ s ∈ (mkFoldSlices X y folds shuffle seed).map FoldSlice.toPredSlice,
      r ∈ s.test_rows := by
  obtain ⟨te0, hte0, hrte⟩ := exists_mem_foldIndex X.length folds seed shuffle hk r hr
  obtain ⟨j, hj, hgets⟩ := List.mem_iff_getElem.mp hte0
  have hget : (foldIndex X.length folds shuffle seed).getD j [] = te0 := by
    rw [List.getD_eq_getElem?_getD, List.getElem?_eq_getElem hj, hgets]
    rfl
  refine ⟨FoldSlice.toPredSlice
    (FoldSlice.mk
      (selectRows X (foldTrainRows X.length
        ((foldIndex X.length folds shuffle seed).getD j [])) [])
      (selectRows y (foldTrainRows X.length
        ((foldIndex X.length folds shuffle seed).getD j [])) 0)
      (selectRows X ((foldIndex X.length folds shuffle seed).getD j []) [])
      ((foldIndex X.length folds shuffle seed).getD j [])
      (foldTrainRows X.length ((foldIndex X.length folds shuffle seed).getD j []))
      j), ?_, ?_⟩
  · refine List.mem_map.mpr ⟨_, ?_, rfl⟩
    rw [mkFoldSlices_eq_rangeMap]
    exact List.mem_map.mpr ⟨j, List.mem_range.mpr hj, rfl⟩
  · show r ∈ (foldIndex X.length folds shuffle seed).getD j []
    rw [hget]
    exact hrte

theorem cellValue_fold_spec (X : List (List Int)) (y y2 : List Int)
    (folds : Nat) (shuffle : Bool) (seed : Nat) (ests : List Estimator)
    (nj : Nat) (r c : Nat) (nd : (ests.map Estimator.name).Nodup)
    (hr : r < X.length) (hc : c < ests.length) (hk : 1 ≤ folds) :
    ∃ te : List Nat, r ∈ te ∧
      cellValue ((mkFoldSlices X y2 folds shuffle seed).map FoldSlice.toPredSlice)
          (fit_estimators (mkFoldSlices X y folds shuffle seed) ests nj)
          (ests.map Estimator.name) r c
        = ((ests.getD c defaultEstimator).fitfn
             (selectRows X (foldTrainRows X.length te) [])
             (selectRows y (foldTrainRows X.length te) 0)
             (selectRows X te [])).getD (idxIn te r) 0 := by
  obtain ⟨s0, hfind⟩ : ∃ s0,
      ((mkFoldSlices X y2 folds shuffle seed).map FoldSlice.toPredSlice).find?
        (fun s => decide (r ∈ s.test_rows)) = some s0 := by
    cases hf : ((mkFoldSlices X y2 folds shuffle seed).map FoldSlice.toPredSlice).find?
        (fun s => decide (r ∈ s.test_rows)) with
    | some s => exact ⟨s, rfl⟩
    | none =>
      exfalso
      rw [List.find?_eq_none] at hf
      obtain ⟨s, hs, hrs⟩ := exists_pred_slice X y2 folds shuffle seed r hr hk
      exact hf s hs (by simpa using hrs)
  have hrs0 : r ∈ s0.test_rows := by
    have := List.find?_some hfind
    simpa using this
  have hmem : s0 ∈ (mkFoldSlices X y2 folds shuffle seed).map FoldSlice.toPredSlice :=
    List.mem_of_find?_eq_some hfind
  rw [mkFoldSlices_eq_rangeMap, List.map_map] at hmem
  obtain ⟨j, hjr, hs0⟩ := List.mem_map.mp hmem
  have hj : j < (foldIndex X.length folds shuffle seed).length := List.mem_range.mp hjr
  set te := (foldIndex X.length folds shuffle seed).getD j [] with hte
  have hs0c : s0 = PredSlice.mk (selectRows X te []) te j := by
    rw [← hs0]; rfl
  subst hs0c
  refine ⟨te, by simpa using hrs0, ?_⟩
  have step1 : cellValue ((mkFoldSlices X y2 folds shuffle seed).map FoldSlice.toPredSlice)
      (fit_estimators (mkFoldSlices X y folds shuffle seed) ests nj)
      (ests.map Estimator.name) r c
    = (match (lookupHandles (fit_estimators (mkFoldSlices X y folds shuffle seed) ests nj)
          j).find? (fun h => decide (h.1 = (ests.map Estimator.name).getD c "")) with
       | none => 0
       | some h => (h.2 (selectRows X te [])).getD (idxIn te r) 0) := by
    rw [cellValue, hfind]
  rw [step1, lookup_fit_estimators X y folds shuffle seed ests nj j hj, ← hte,
      find_est_by_name (fun e => e.fitfn
        (selectRows X (foldTrainRows X.length te) [])
        (selectRows y (foldTrainRows X.length te) 0)) ests c hc nd]

theorem mem_foldTrainRows_iff (n : Nat) (te : List Nat) (r : Nat) :
    r ∈ foldTrainRows n te ↔ r < n ∧ r ∉ te := by
  rw [foldTrainRows, List.mem_filter]
  simp [List.mem_range]

theorem base_predict_cell (slices : List PredSlice)
    (handles : List (Nat × List (String × FittedModel))) (n : Nat)
    (columns : List String) (nj r c : Nat) (hr : r < n) (hc : c < columns.length) :
    ((base_predict slices handles n columns nj).1.getD r []).getD c 0
      = cellValue slices handles columns r c := by
  have h1 : (base_predict slices handles n columns nj).1
      = (List.range n).map (fun i => (List.range columns.length).map
          (fun j => cellValue slices handles columns i j)) := rfl
  have h2 : ((base_predict slices handles n columns nj).1).getD r []
      = (List.range columns.length).map (fun j => cellValue slices handles columns r j) := by
    rw [h1, List.getD_eq_getElem?_getD, List.getElem?_eq_getElem (by simpa using hr),
        Option.getD_some, List.getElem_map, List.getElem_range]
  rw [h2, List.getD_eq_getElem?_getD, List.getElem?_eq_getElem (by simpa using hc),
      Option.getD_some, List.getElem_map, List.getElem_range]

theorem base_predict_row_lengths (slices : List PredSlice)
    (handles : List (Nat × List (String × FittedModel))) (n : Nat)
    (columns : List String) (nj : Nat) :
    ∀ row ∈ (base_predict slices handles n columns nj).1,
      row.length = columns.length := by
  intro row hrow
  rcases List.mem_map.mp hrow with ⟨r, _, rfl⟩
  simp

theorem fit_full_names (X : List (List Int)) (y : List Int)
    (ests : List Estimator) (nj : Nat) :
    (fit_full_estimators X y ests nj).map Prod.fst = ests.map Estimator.name := by
  rw [fit_full_estimators, List.map_map]
  rfl

theorem specFull_row_lengths (pf : PredictionFeature) (X : XInput) :
    ∀ row ∈ (specFullDataPredict pf X).1,
      row.length = (pf._fitted_ests.getD []).length := by
  intro row hrow
  exact base_predict_row_lengths _ _ _ _ _ row hrow

theorem specFolded_row_lengths (pf : PredictionFeature) (X : XInput) (y : List Int) :
    ∀ row ∈ (specFoldedPredict pf X y).1,
      row.length = (pf._fitted_ests.getD []).length := by
  intro row hrow
  exact base_predict_row_lengths _ _ _ _ _ row hrow

theorem predict_ok_elim (pf : PredictionFeature) (X : XInput) (y : List Int)
    (M : List (List Int)) (cols prod : List String) (Mout : XInput)
    (pfo : PredictionFeature)
    (hparts : pf.predict_parts X y = .ok (M, cols, prod))
    (h : pf.predict X y = .ok (Mout, pfo)) :
    Mout.data = M ∧ pfo = pf := by
  rw [PredictionFeature.predict] at h
  split at h
  · rename_i e heq
    rw [hparts] at heq
    exact absurd heq (by simp)
  · rename_i M0 cols0 prod0 heq
    rw [hparts] at heq
    simp only [Except.ok.injEq, Prod.mk.injEq] at heq
    split at h
    · exact absurd h (by simp)
    · split at h <;> simp only [Except.ok.injEq, Prod.mk.injEq] at h
      · refine ⟨?_, h.2.symm⟩
        rw [← h.1, XInput.data]
        exact heq.1.symm
      · refine ⟨?_, h.2.symm⟩
        rw [← h.1, XInput.data]
        exact heq.1.symm

theorem predict_state (pf : PredictionFeature) (X : XInput) (y : List Int)
    (M : XInput) (pf2 : PredictionFeature)
    (h : pf.predict X y = .ok (M, pf2)) : pf2 = pf := by
  rw [PredictionFeature.predict] at h
  split at h
  · exact absurd h (by simp)
  · split at h
    · exact absurd h (by simp)
    · split at h <;> simp only [Except.ok.injEq, Prod.mk.injEq] at h <;> exact h.2.symm

theorem transform_state (pf : PredictionFeature) (X : XInput) (y : List Int)
    (M : XInput) (pf2 : PredictionFeature)
    (h : pf.transform X y = .ok (M, pf2)) : pf2 = pf := by
  rw [PredictionFeature.transform] at h
  split at h
  · exact absurd h (by simp)
  · rename_i M0 pf0 h1
    have hpf0 : pf0 = pf := predict_state pf X y M0 pf0 h1
    split at h
    · simp only [Except.ok.injEq, Prod.mk.injEq] at h
      exact h.2.symm.trans hpf0
    · split at h <;> simp only [Except.ok.injEq, Prod.mk.injEq] at h <;>
        exact h.2.symm.trans hpf0

theorem predict_parts_congr (p q : PredictionFeature) (X : XInput) (y : List Int)
    (hch : p.check = q.check) (htr : p.train_ests_ = q.train_ests_)
    (hte : p.test_ests_ = q.test_ests_) (hfe : p._fitted_ests = q._fitted_ests)
    (hf : p.cfg.folds = q.cfg.folds) (hs : p.cfg.shuffle = q.cfg.shuffle)
    (hr : p.cfg.random_state = q.cfg.random_state) :
    p.predict_parts X y = q.predict_parts X y := by
  have hbp : ∀ sl h n c, base_predict sl h n c p.cfg.n_jobs
      = base_predict sl h n c q.cfg.n_jobs := fun _ _ _ _ => rfl
  simp only [PredictionFeature.predict_parts, hch, htr, hte, hfe, hf, hs, hr, hbp]

theorem predict_map_fst_congr (p q : PredictionFeature) (X : XInput) (y : List Int)
    (hch : p.check = q.check) (htr : p.train_ests_ = q.train_ests_)
    (hte : p.test_ests_ = q.test_ests_) (hfe : p._fitted_ests = q._fitted_ests)
    (hf : p.cfg.folds = q.cfg.folds) (hs : p.cfg.shuffle = q.cfg.shuffle)
    (hr : p.cfg.random_state = q.cfg.random_state) :
    (p.predict X y).map Prod.fst = (q.predict X y).map Prod.fst := by
  have hparts := predict_parts_congr p q X y hch htr hte hfe hf hs hr
  cases hqp : q.predict_parts X y with
  | error e => simp [PredictionFeature.predict, hparts, hqp, Except.map]
  | ok v =>
    obtain ⟨M, cols, prod⟩ := v
    cases hco : check_fit_overlap cols prod "prediction_feature" with
    | error e => simp [PredictionFeature.predict, hparts, hqp, hco, Except.map]
    | ok u =>
      cases u
      cases X with
      | arr m => simp [PredictionFeature.predict, hparts, hqp, hco, Except.map, XInput.isDf]
      | df i m => simp [PredictionFeature.predict, hparts, hqp, hco, Except.map, XInput.isDf]

theorem fit_njobs_strip (cfg : PFConfig) (n1 n2 : Nat) (X : XInput) (y : List Int) :
    ((mkPredictionFeature { cfg with n_jobs := n1 }).fit X y).map fittedState
      = ((mkPredictionFeature { cfg with n_jobs := n2 }).fit X y).map fittedState := by
  simp only [PredictionFeature.fit, mkPredictionFeature]
  cases hf : IdTrain.fit (IdTrain.mk cfg.sample_size none) X.data with
  | error e => simp [hf]
  | ok chk =>
    simp only [hf]
    cases hp : preprocess_folds X.data y cfg.folds cfg.shuffle cfg.random_state with
    | error e => simp [hp]
    | ok fs =>
      simp only [hp]
      simp [fittedState, fit_estimators, fit_full_estimators, Except.map]

/-! ## Claims -/

/-- C3 (counterexample): on a concrete unfitted `PredictionFeature`,
`predict` (and `transform`) do fail, but with an attribute-access error
on the never-assigned `test_ests_` — not with the spec's dedicated
`NotFittedError`: the `predict` body (lines 146–189) contains no
fitted-state guard. -/
theorem c3_predict_unfitted_cex :
    wpf0.predict wX [] = .error (.attributeError "test_ests_") ∧
    wpf0.transform wX [] = .error (.attributeError "test_ests_") ∧
    Err.attributeError "test_ests_" ≠ Err.notFittedError :=
  ⟨rfl, rfl, by decide⟩

/-- C3 (amended): for every configuration and input, calling `predict` or
`transform` on a `PredictionFeature` on which `fit` has never been called
fails — the fingerprint checker cannot match, so the full-data branch is
taken and the unset `test_ests_` attribute is accessed — but the failure
is an attribute error, not a dedicated `NotFittedError`. -/
theorem c3_predict_unfitted_fails (cfg : PFConfig) (X : XInput) (y : List Int) :
    (mkPredictionFeature cfg).predict X y = .error (.attributeError "test_ests_") ∧
    (mkPredictionFeature cfg).transform X y = .error (.attributeError "test_ests_") := by
  have hparts : (mkPredictionFeature cfg).predict_parts X y
      = .error (.attributeError "test_ests_") := by
    rw [PredictionFeature.predict_parts]
    rw [if_neg (by rw [mkPredictionFeature]; rw [IdTrain.is_train]; simp)]
    rfl
  have hpred : (mkPredictionFeature cfg).predict X y
      = .error (.attributeError "test_ests_") := by
    rw [PredictionFeature.predict, hparts]
  refine ⟨hpred, ?_⟩
  rw [PredictionFeature.transform, hpred]

/-- C4: for every call to `predict` whose assembly phase succeeds, if some
expected estimator name (an entry of `self._fitted_ests`, used as the
column set) is missing from the names that actually produced output, the
call fails with `EstimatorMismatchError` (context
`"prediction_feature"`, as passed at lines 187–188). -/
theorem c4_mismatch_detection (pf : PredictionFeature) (X : XInput) (y : List Int)
    (M : List (List Int)) (exp prod : List String) (nm : String)
    (hparts : pf.predict_parts X y = .ok (M, exp, prod))
    (hmem : nm ∈ exp) (hnmem : nm ∉ prod) :
    pf.predict X y = .error (.estimatorMismatchError "prediction_feature") := by
  have hchk : check_fit_overlap exp prod "prediction_feature"
      = .error (.estimatorMismatchError "prediction_feature") := by
    rw [check_fit_overlap, if_neg]
    intro hall
    rw [List.all_eq_true] at hall
    have := hall nm hmem
    simp at this
    exact hnmem this
  rw [PredictionFeature.predict, hparts]
  simp only [hchk]

/-- C5: `transform(X)` first computes the prediction matrix via
`predict(X)`; when `concat` is false it returns that matrix alone, and
when `concat` is true it returns `X` with the prediction columns
appended — for a labeled `X` the result keeps `X`'s row labels in `X`'s
row order. -/
theorem c5_transform_concat (pf : PredictionFeature) (X : XInput) (y : List Int)
    (M : XInput) (pfo : PredictionFeature)
    (hpred : pf.predict X y = .ok (M, pfo)) :
    (pf.cfg.concat = false → pf.transform X y = .ok (M, pfo)) ∧
    (pf.cfg.concat = true → pf.transform X y = .ok (concatColumns X M, pfo)) := by
  constructor
  · intro hcc
    rw [PredictionFeature.transform, hpred, hcc]
    rfl
  · intro hcc
    rw [PredictionFeature.transform, hpred, hcc]
    cases X with
    | arr xd => rfl
    | df idx xd => rfl

/-- C6: immediately after `fit(X, y)` succeeds, the fingerprint checker
recognizes that exact `X` as the training set (`is_train` is true), so a
subsequent `predict` on that `X` takes the fold-wise branch: the fold
slices are regenerated and the fold-wise handles are used. -/
theorem c6_fingerprint_roundtrip (pf : PredictionFeature) (X : XInput)
    (y : List Int) (pf1 : PredictionFeature) (y2 : List Int)
    (hfit : pf.fit X y = .ok pf1) :
    pf1.check.is_train X.data = true ∧
    pf1.predict_parts X y2 = .ok ((specFoldedPredict pf1 X y2).1,
      pf1._fitted_ests.getD [], (specFoldedPredict pf1 X y2).2) := by
  obtain ⟨hcfg, hchk, htr, hte, hfets, hsz, hfolds⟩ := fit_ok_elim pf X y pf1 hfit
  have hit : pf1.check.is_train X.data = true := fit_is_train pf X y pf1 hfit
  refine ⟨hit, ?_⟩
  have := predict_parts_folded pf1 X y2 _ _ htr hfets hit
    (by rw [hcfg]; omega)
  rw [this, hfets]
  rfl

/-- C7: on a matrix not recognized as the training set, calling
`transform` twice with no intervening `fit` yields identical output both
times — `transform` (and the `predict` it calls) assign no attribute, so
the second call starts from the same state. -/
theorem c7_transform_idempotent (pf : PredictionFeature) (X : XInput)
    (y : List Int) (M1 : XInput) (pf1 : PredictionFeature) (M2 : XInput)
    (pf2 : PredictionFeature)
    (hunseen : pf.check.is_train X.data = false)
    (h1 : pf.transform X y = .ok (M1, pf1))
    (h2 : pf1.transform X y = .ok (M2, pf2)) :
    M2 = M1 ∧ pf2 = pf1 := by
  have hst : pf1 = pf := transform_state pf X y M1 pf1 h1
  rw [hst] at h2
  rw [h1] at h2
  simp only [Except.ok.injEq, Prod.mk.injEq] at h2
  exact ⟨h2.1.symm, h2.2.symm⟩

/-- C2: after a successful `fit`, `predict` selects its ensemble by the
fingerprint check: the configuration is the fit-time one, and when `X'`
is recognized as the training set the folds are regenerated (same
`folds`, `shuffle`, `random_state`) and the fold-wise handles drive the
out-of-fold assembly, otherwise the full-data handles predict on the
single slice covering all of `X'`. -/
theorem c2_predict_branch_selection (pf : PredictionFeature) (X : XInput)
    (y : List Int) (pf1 : PredictionFeature) (X' : XInput) (y' : List Int)
    (hfit : pf.fit X y = .ok pf1) :
    pf1.cfg = pf.cfg ∧
    (pf1.check.is_train X'.data = true →
      pf1.predict_parts X' y' = .ok ((specFoldedPredict pf1 X' y').1,
        pf1._fitted_ests.getD [], (specFoldedPredict pf1 X' y').2)) ∧
    (pf1.check.is_train X'.data = false →
      pf1.predict_parts X' y' = .ok ((specFullDataPredict pf1 X').1,
        pf1._fitted_ests.getD [], (specFullDataPredict pf1 X').2)) := by
  obtain ⟨hcfg, hchk, htr, hte, hfets, hsz, hfolds⟩ := fit_ok_elim pf X y pf1 hfit
  refine ⟨hcfg, ?_, ?_⟩
  · intro hit
    have := predict_parts_folded pf1 X' y' _ _ htr hfets hit (by rw [hcfg]; omega)
    rw [this, hfets]
    rfl
  · intro hit
    have := predict_parts_full pf1 X' y' _ _ hte hfets hit
    rw [this, hfets]
    rfl

/-- C8: a second `fit` fully replaces the fitted state: refitting an
already-fitted transformer behaves exactly like fitting the original,
and every field of the refitted state (fold-wise handles, full-data
handles, recorded names, fingerprint) comes from the most recent fit
alone. -/
theorem c8_refit_replaces_state (pf : PredictionFeature) (X : XInput)
    (y : List Int) (pf1 : PredictionFeature) (X' : XInput) (y' : List Int)
    (hfit : pf.fit X y = .ok pf1) :
    pf1.fit X' y' = pf.fit X' y' ∧
    (∀ pf2, pf1.fit X' y' = .ok pf2 →
      pf2.train_ests_ = some (fit_estimators
        (mkFoldSlices X'.data y' pf.cfg.folds pf.cfg.shuffle pf.cfg.random_state)
        pf.cfg.estimators pf.cfg.n_jobs) ∧
      pf2.test_ests_ = some (fit_full_estimators X'.data y' pf.cfg.estimators
        pf.cfg.n_jobs) ∧
      pf2._fitted_ests = some ((fit_full_estimators X'.data y' pf.cfg.estimators
        pf.cfg.n_jobs).map Prod.fst) ∧
      pf2.check = IdTrain.mk pf.check.size
        (some (X'.data.length, X'.data.take pf.check.size))) := by
  obtain ⟨hcfg, hchk, htr, hte, hfets, hsz, hfolds⟩ := fit_ok_elim pf X y pf1 hfit
  have hsize : pf1.check.size = pf.check.size := by rw [hchk]
  have hfiteq : pf1.fit X' y' = pf.fit X' y' := by
    simp only [PredictionFeature.fit, IdTrain.fit, hcfg, hsize]
  refine ⟨hfiteq, ?_⟩
  intro pf2 h2
  rw [hfiteq] at h2
  obtain ⟨hcfg2, hchk2, htr2, hte2, hfets2, _, _⟩ := fit_ok_elim pf X' y' pf2 h2
  exact ⟨htr2, hte2, hfets2, hchk2⟩

/-- C10: the expected estimator-name list used in `predict` — the column
set of the output matrix and the reference of the mismatch check — is,
in both branches, the list recorded at fit time from the full-data fit
(the names of `test_ests_`, line 138), equal to the template names. -/
theorem c10_expected_names_from_full_fit (pf : PredictionFeature) (X : XInput)
    (y : List Int) (pf1 : PredictionFeature)
    (hfit : pf.fit X y = .ok pf1) :
    pf1._fitted_ests = some ((pf1.test_ests_.getD []).map Prod.fst) ∧
    pf1._fitted_ests = some (pf.cfg.estimators.map Estimator.name) ∧
    (∀ (X' : XInput) (y' : List Int) (M : List (List Int)) (exp prod : List String),
      pf1.predict_parts X' y' = .ok (M, exp, prod) →
      exp = pf.cfg.estimators.map Estimator.name ∧
      ∀ row ∈ M, row.length = exp.length) := by
  obtain ⟨hcfg, hchk, htr, hte, hfets, hsz, hfolds⟩ := fit_ok_elim pf X y pf1 hfit
  have hnames : (fit_full_estimators X.data y pf.cfg.estimators pf.cfg.n_jobs).map Prod.fst
      = pf.cfg.estimators.map Estimator.name := fit_full_names _ _ _ _
  refine ⟨?_, ?_, ?_⟩
  · rw [hfets, hte]
    rfl
  · rw [hfets, hnames]
  · intro X' y' M exp prod hparts
    rcases hit : pf1.check.is_train X'.data with _ | _
    · have := predict_parts_full pf1 X' y' _ _ hte hfets hit
      rw [this] at hparts
      simp only [Except.ok.injEq, Prod.mk.injEq] at hparts
      obtain ⟨hM, hexp, _⟩ := hparts
      constructor
      · rw [← hexp, hnames]
      · intro row hrow
        have hrow2 : row ∈ (specFullDataPredict pf1 X').1 := by rw [hM]; exact hrow
        have hlen := specFull_row_lengths pf1 X' row hrow2
        rw [hfets] at hlen
        rw [← hexp]
        simpa using hlen
    · have := predict_parts_folded pf1 X' y' _ _ htr hfets hit (by rw [hcfg]; omega)
      rw [this] at hparts
      simp only [Except.ok.injEq, Prod.mk.injEq] at hparts
      obtain ⟨hM, hexp, _⟩ := hparts
      constructor
      · rw [← hexp, hnames]
      · intro row hrow
        have hrow2 : row ∈ (specFoldedPredict pf1 X' y').1 := by rw [hM]; exact hrow
        have hlen := specFolded_row_lengths pf1 X' y' row hrow2
        rw [hfets] at hlen
        rw [← hexp]
        simpa using hlen

/-- C9: for a fixed input and configuration, the fitted state (fingerprint,
fold-wise handles, full-data handles, recorded names) and every
subsequent prediction matrix are identical for every worker count:
`n_jobs` never reaches the value computation. -/
theorem c9_njobs_invariance (cfg : PFConfig) (n1 n2 : Nat) (X : XInput)
    (y : List Int) :
    ((mkPredictionFeature { cfg with n_jobs := n1 }).fit X y).map fittedState
      = ((mkPredictionFeature { cfg with n_jobs := n2 }).fit X y).map fittedState ∧
    (∀ (p1 p2 : PredictionFeature) (X' : XInput) (y' : List Int),
      (mkPredictionFeature { cfg with n_jobs := n1 }).fit X y = .ok p1 →
      (mkPredictionFeature { cfg with n_jobs := n2 }).fit X y = .ok p2 →
      (p1.predict X' y').map Prod.fst = (p2.predict X' y').map Prod.fst) := by
  constructor
  · exact fit_njobs_strip cfg n1 n2 X y
  · intro p1 p2 X' y' h1 h2
    obtain ⟨hcfg1, hchk1, htr1, hte1, hfets1, _, _⟩ := fit_ok_elim _ X y p1 h1
    obtain ⟨hcfg2, hchk2, htr2, hte2, hfets2, _, _⟩ := fit_ok_elim _ X y p2 h2
    exact predict_map_fst_congr p1 p2 X' y'
      (by rw [hchk1, hchk2]; simp [mkPredictionFeature])
      (by rw [htr1, htr2]; simp [mkPredictionFeature, fit_estimators])
      (by rw [hte1, hte2]; simp [mkPredictionFeature, fit_full_estimators])
      (by rw [hfets1, hfets2]; simp [mkPredictionFeature, fit_full_estimators])
      (by rw [hcfg1, hcfg2]; simp [mkPredictionFeature])
      (by rw [hcfg1, hcfg2]; simp [mkPredictionFeature])
      (by rw [hcfg1, hcfg2]; simp [mkPredictionFeature])

/-- C1: for every row `r` of the training matrix and every estimator
column, the value that `predict(X_train)` places at `(r, c)` was produced
by the estimator of column `c` fitted on the training rows of the fold
that held `r` out: the labels its fit received are exactly the labels at
`foldTrainRows` of that fold, a set `r` never belongs to — the
prediction for `r` was made by an estimator that never saw `r`'s label. -/
theorem c1_out_of_fold_leakage (pf : PredictionFeature) (X : XInput)
    (y y2 : List Int) (pf1 : PredictionFeature) (Mout : XInput)
    (pfo : PredictionFeature) (r c : Nat)
    (hnd : (pf.cfg.estimators.map Estimator.name).Nodup)
    (hfit : pf.fit X y = .ok pf1)
    (hpred : pf1.predict X y2 = .ok (Mout, pfo))
    (hr : r < X.data.length) (hc : c < pf.cfg.estimators.length) :
    ∃ te : List Nat,
      r ∈ te ∧
      r ∉ foldTrainRows X.data.length te ∧
      (Mout.data.getD r []).getD c 0
        = ((pf.cfg.estimators.getD c defaultEstimator).fitfn
            (selectRows X.data (foldTrainRows X.data.length te) [])
            (selectRows y (foldTrainRows X.data.length te) 0)
            (selectRows X.data te [])).getD (idxIn te r) 0 := by
  obtain ⟨hcfg, hchk, htr, hte, hfets, hsz, hfolds⟩ := fit_ok_elim pf X y pf1 hfit
  have hit : pf1.check.is_train X.data = true := fit_is_train pf X y pf1 hfit
  have hparts := predict_parts_folded pf1 X y2 _ _ htr hfets hit (by rw [hcfg]; omega)
  obtain ⟨hdata, hpfo⟩ := predict_ok_elim pf1 X y2 _ _ _ Mout pfo hparts hpred
  have hspec : (specFoldedPredict pf1 X y2).1
      = (base_predict
          ((mkFoldSlices X.data y2 pf.cfg.folds pf.cfg.shuffle pf.cfg.random_state).map
            FoldSlice.toPredSlice)
          (fit_estimators
            (mkFoldSlices X.data y pf.cfg.folds pf.cfg.shuffle pf.cfg.random_state)
            pf.cfg.estimators pf.cfg.n_jobs)
          X.data.length (pf.cfg.estimators.map Estimator.name) pf1.cfg.n_jobs).1 := by
    rw [specFoldedPredict, hcfg, htr, hfets, fit_full_names]
    rfl
  obtain ⟨te, hrte, hval⟩ := cellValue_fold_spec X.data y y2 pf.cfg.folds
    pf.cfg.shuffle pf.cfg.random_state pf.cfg.estimators pf.cfg.n_jobs r c hnd hr hc
    (by omega)
  refine ⟨te, hrte, ?_, ?_⟩
  · intro hmem
    exact ((mem_foldTrainRows_iff X.data.length te r).mp hmem).2 hrte
  · rw [hdata, hspec, base_predict_cell _ _ _ _ _ r c hr (by simpa using hc)]
    exact hval

/-! ## Witnesses -/

/-- C1 witness: the leakage theorem applied to the concrete fitted
transformer at row 0, column 0. -/
theorem c1_out_of_fold_leakage_witness :
    (wpf0.cfg.estimators.map Estimator.name).Nodup ∧
    wpf0.fit wX wy = .ok wpf1 ∧
    wpf1.predict wX [] = .ok (wPredTrain.1, wPredTrain.2) ∧
    0 < wX.data.length ∧ 0 < wpf0.cfg.estimators.length ∧
    (∃ te : List Nat,
      0 ∈ te ∧
      0 ∉ foldTrainRows wX.data.length te ∧
      (wPredTrain.1.data.getD 0 []).getD 0 0
        = ((wpf0.cfg.estimators.getD 0 defaultEstimator).fitfn
            (selectRows wX.data (foldTrainRows wX.data.length te) [])
            (selectRows wy (foldTrainRows wX.data.length te) 0)
            (selectRows wX.data te [])).getD (idxIn te 0) 0) :=
  ⟨by decide, rfl, rfl, by decide, by decide,
   c1_out_of_fold_leakage wpf0 wX wy [] wpf1 wPredTrain.1 wPredTrain.2 0 0
     (by decide) rfl rfl (by decide) (by decide)⟩

/-- C2 witness: branch selection applied to the concrete fitted
transformer, once on the recognized training matrix and once on unseen
data. -/
theorem c2_predict_branch_selection_witness :
    wpf0.fit wX wy = .ok wpf1 ∧
    wpf1.cfg = wpf0.cfg ∧
    wpf1.check.is_train wX.data = true ∧
    wpf1.predict_parts wX [] = .ok ((specFoldedPredict wpf1 wX []).1,
      wpf1._fitted_ests.getD [], (specFoldedPredict wpf1 wX []).2) ∧
    wpf1.check.is_train wXnew.data = false ∧
    wpf1.predict_parts wXnew [] = .ok ((specFullDataPredict wpf1 wXnew).1,
      wpf1._fitted_ests.getD [], (specFullDataPredict wpf1 wXnew).2) :=
  ⟨rfl, (c2_predict_branch_selection wpf0 wX wy wpf1 wX [] rfl).1, rfl,
   (c2_predict_branch_selection wpf0 wX wy wpf1 wX [] rfl).2.1 rfl, rfl,
   (c2_predict_branch_selection wpf0 wX wy wpf1 wXnew [] rfl).2.2 rfl⟩

/-- C4 witness: the mismatch theorem applied to a hand-assembled state
whose full-data handles miss the expected estimator `"b"`. -/
theorem c4_mismatch_detection_witness :
    w4pf.predict_parts w4X [] = .ok ([[7, 0], [7, 0]], ["a", "b"], ["a"]) ∧
    "b" ∈ ["a", "b"] ∧ "b" ∉ ["a"] ∧
    w4pf.predict w4X [] = .error (.estimatorMismatchError "prediction_feature") :=
  ⟨rfl, by decide, by decide,
   c4_mismatch_detection w4pf w4X [] [[7, 0], [7, 0]] ["a", "b"] ["a"] "b"
     rfl (by decide) (by decide)⟩

/-- C5 witness: `transform` on the concrete fitted transformer (whose
`concat` is true) appends the prediction columns to the input. -/
theorem c5_transform_concat_witness :
    wpf1.cfg.concat = true ∧
    wpf1.predict wX [] = .ok (wPredTrain.1, wPredTrain.2) ∧
    wpf1.transform wX [] = .ok (concatColumns wX wPredTrain.1, wPredTrain.2) :=
  ⟨rfl, rfl,
   (c5_transform_concat wpf1 wX [] wPredTrain.1 wPredTrain.2 rfl).2 rfl⟩

/-- C6 witness: the fingerprint round-trip on the concrete fitted
transformer. -/
theorem c6_fingerprint_roundtrip_witness :
    wpf0.fit wX wy = .ok wpf1 ∧
    wpf1.check.is_train wX.data = true ∧
    wpf1.predict_parts wX [] = .ok ((specFoldedPredict wpf1 wX []).1,
      wpf1._fitted_ests.getD [], (specFoldedPredict wpf1 wX []).2) :=
  ⟨rfl, (c6_fingerprint_roundtrip wpf0 wX wy wpf1 [] rfl).1,
   (c6_fingerprint_roundtrip wpf0 wX wy wpf1 [] rfl).2⟩

/-- C7 witness: transforming unseen data twice from the state returned by
the first call yields the same output. -/
theorem c7_transform_idempotent_witness :
    wpf1.check.is_train wXnew.data = false ∧
    wpf1.transform wXnew [] = .ok (wTransNew1.1, wTransNew1.2) ∧
    wTransNew1.2.transform wXnew [] = .ok (wTransNew1.1, wTransNew1.2) ∧
    (wTransNew1.1 = wTransNew1.1 ∧ wTransNew1.2 = wTransNew1.2) :=
  ⟨rfl, rfl, rfl,
   c7_transform_idempotent wpf1 wXnew [] wTransNew1.1 wTransNew1.2
     wTransNew1.1 wTransNew1.2 rfl rfl rfl⟩

/-- C8 witness: refitting the concrete fitted transformer on new data
equals fitting the original, and the refit state is that of the second
fit. -/
theorem c8_refit_replaces_state_witness :
    wpf0.fit wX wy = .ok wpf1 ∧
    wpf1.fit wXnew wyNew = wpf0.fit wXnew wyNew ∧
    wpf1.fit wXnew wyNew = .ok wpf2r ∧
    wpf2r.train_ests_ = some (fit_estimators
      (mkFoldSlices wXnew.data wyNew wpf0.cfg.folds wpf0.cfg.shuffle
        wpf0.cfg.random_state) wpf0.cfg.estimators wpf0.cfg.n_jobs) ∧
    wpf2r.test_ests_ = some (fit_full_estimators wXnew.data wyNew
      wpf0.cfg.estimators wpf0.cfg.n_jobs) ∧
    wpf2r._fitted_ests = some ((fit_full_estimators wXnew.data wyNew
      wpf0.cfg.estimators wpf0.cfg.n_jobs).map Prod.fst) ∧
    wpf2r.check = IdTrain.mk wpf0.check.size
      (some (wXnew.data.length, wXnew.data.take wpf0.check.size)) :=
  ⟨rfl, (c8_refit_replaces_state wpf0 wX wy wpf1 wXnew wyNew rfl).1, rfl,
   ((c8_refit_replaces_state wpf0 wX wy wpf1 wXnew wyNew rfl).2 wpf2r rfl).1,
   ((c8_refit_replaces_state wpf0 wX wy wpf1 wXnew wyNew rfl).2 wpf2r rfl).2.1,
   ((c8_refit_replaces_state wpf0 wX wy wpf1 wXnew wyNew rfl).2 wpf2r rfl).2.2.1,
   ((c8_refit_replaces_state wpf0 wX wy wpf1 wXnew wyNew rfl).2 wpf2r rfl).2.2.2⟩

/-- C9 witness: fitting with 1 worker and with 7 workers on the concrete
input yields the same fitted state and the same predictions. -/
theorem c9_njobs_invariance_witness :
    ((mkPredictionFeature { wcfg with n_jobs := 1 }).fit wX wy).map fittedState
      = ((mkPredictionFeature { wcfg with n_jobs := 7 }).fit wX wy).map fittedState ∧
    (mkPredictionFeature { wcfg with n_jobs := 1 }).fit wX wy = .ok w9p1 ∧
    (mkPredictionFeature { wcfg with n_jobs := 7 }).fit wX wy = .ok w9p2 ∧
    (w9p1.predict wXnew []).map Prod.fst = (w9p2.predict wXnew []).map Prod.fst :=
  ⟨(c9_njobs_invariance wcfg 1 7 wX wy).1, rfl, rfl,
   (c9_njobs_invariance wcfg 1 7 wX wy).2 w9p1 w9p2 wXnew [] rfl rfl⟩

/-- C10 witness: on the concrete fitted transformer the expected names
equal the template names recorded from the full-data fit, and the
assembled matrix has one column per expected name. -/
theorem c10_expected_names_from_full_fit_witness :
    wpf0.fit wX wy = .ok wpf1 ∧
    wpf1._fitted_ests = some ((wpf1.test_ests_.getD []).map Prod.fst) ∧
    wpf1._fitted_ests = some (wpf0.cfg.estimators.map Estimator.name) ∧
    wpf1.predict_parts wX [] = .ok (wPartsTrain.1, wPartsTrain.2.1, wPartsTrain.2.2) ∧
    wPartsTrain.2.1 = wpf0.cfg.estimators.map Estimator.name ∧
    (wPartsTrain.1.getD 0 []).length = wPartsTrain.2.1.length :=
  ⟨rfl, (c10_expected_names_from_full_fit wpf0 wX wy wpf1 rfl).1,
   (c10_expected_names_from_full_fit wpf0 wX wy wpf1 rfl).2.1, rfl,
   ((c10_expected_names_from_full_fit wpf0 wX wy wpf1 rfl).2.2 wX []
     wPartsTrain.1 wPartsTrain.2.1 wPartsTrain.2.2 rfl).1,
   ((c10_expected_names_from_full_fit wpf0 wX wy wpf1 rfl).2.2 wX []
     wPartsTrain.1 wPartsTrain.2.1 wPartsTrain.2.2 rfl).2
     (wPartsTrain.1.getD 0 []) (by decide)⟩

end Mlens
